import Mathlib

/-!
Shallow embedding of the tinfoil-js attestation verification core
(packages/verifier and packages/tinfoil), together with theorems about
the behaviour of its operations.

Conventions used throughout:
* TypeScript functions that can `throw` are modelled as `Except String α`
  (the `String` is the error message; where a message interpolates
  `JSON.stringify` of a record we keep only the fixed descriptive text).
* JavaScript strings are Lean `String`s; where character-level reasoning
  is needed we work on `String.toList`.
* Asynchronous code has no concurrency-relevant behaviour in the claims
  treated here, so `await` points are modelled by plain sequencing, and
  the outcomes of external effects (network fetches, cryptographic
  verifications, transport sends) are passed in as explicit oracle
  arguments.
-/

deriving instance DecidableEq for Except

namespace Tinfoil

/-! ### PredicateType (packages/verifier/src/types.ts)

The TypeScript `enum PredicateType` is a closed set of string constants;
`Measurement.type` is a plain string compared against these constants. -/

def PredicateType.SevGuestV1 : String := "https://tinfoil.sh/predicate/sev-snp-guest/v1"

def PredicateType.SevGuestV2 : String := "https://tinfoil.sh/predicate/sev-snp-guest/v2"

def PredicateType.SnpTdxMultiplatformV1 : String := "https://tinfoil.sh/predicate/snp-tdx-multiplatform/v1"

structure AttestationMeasurement where
  type : String
  registers : List String
deriving DecidableEq, Repr

/-! ### compareMeasurements (packages/verifier/src/types.ts, lines 48-86) -/

/-- Translation of `compareMeasurements(a, b)`.  Success is `.ok ()`;
a thrown `ValidationError` is `.error msg`. -/
def compareMeasurements (a b : AttestationMeasurement) : Except String Unit :=
  if a.type = b.type then
    if a.registers.length ≠ b.registers.length ∨
        ¬ (List.range a.registers.length).all
            (fun i => a.registers.getD i "" == b.registers.getD i "") then
      .error "Measurement mismatch: registers do not match"
    else
      .ok ()
  else if a.type = PredicateType.SnpTdxMultiplatformV1 ∧ b.type = PredicateType.SevGuestV2 then
    if a.registers.length < 1 ∨ b.registers.length < 1 then
      .error "Insufficient registers for comparison"
    else if a.registers.getD 0 "" ≠ b.registers.getD 0 "" then
      .error "SNP measurement mismatch"
    else
      .ok ()
  else if a.type = PredicateType.SevGuestV2 ∧ b.type = PredicateType.SnpTdxMultiplatformV1 then
    if a.registers.length < 1 ∨ b.registers.length < 1 then
      .error "Insufficient registers for comparison"
    else if a.registers.getD 0 "" ≠ b.registers.getD 0 "" then
      .error "SNP measurement mismatch"
    else
      .ok ()
  else
    .error ("Measurement types are incompatible: '" ++ a.type ++ "' vs '" ++ b.type ++ "'")

/-! ### verifySigstoreBundle, payload checks (packages/verifier/src/sigstore.ts)

The DSSE-envelope verification (`verifier.verifyDsse`) is an external
cryptographic library call; the claims about this function concern the
pure checks the function performs on the *verified* payload.  These are
modelled here as a function of the payload's fields, following the
source line by line:

```
if (payloadType !== 'application/vnd.in-toto+json') throw ...
if (digest !== payload.subject[0].digest.sha256) throw ...
if (!predicateFields) throw ...
if (predicateType === PredicateType.SnpTdxMultiplatformV1) {
  if (!predicateFields.snp_measurement) throw ...
  registers = [predicateFields.snp_measurement];
} else throw ...
return { type: predicateType, registers };
```
-/

/-- The pure checks `verifySigstoreBundle` runs on a verified DSSE
payload.  `subjectSha256` is `payload.subject[0].digest.sha256`;
`snpMeasurement` is `predicate.snp_measurement` when the predicate
field object and the measurement are present (`none` models an absent
or empty field, which is falsy in JS). -/
def sigstoreVerifyPayload (payloadType : String) (predicateType : String)
    (subjectSha256 : String) (snpMeasurement : Option String)
    (digest : String) : Except String AttestationMeasurement :=
  if payloadType ≠ "application/vnd.in-toto+json" then
    .error ("Unsupported Sigstore payload type: \x22" ++ payloadType ++
      "\x22. Only in-toto attestation format is supported")
  else if digest ≠ subjectSha256 then
    .error ("Release digest mismatch: The release digest from GitHub (" ++ digest ++
      ") does not match the digest in the sigstore bundle (" ++ subjectSha256 ++ ")")
  else if predicateType = PredicateType.SnpTdxMultiplatformV1 then
    match snpMeasurement with
    | none => .error "Invalid Sigstore bundle: SNP/TDX multiplatform predicate is missing the snp_measurement field"
    | some m => .ok { type := predicateType, registers := [m] }
  else
    .error ("Unsupported attestation predicate type: \x22" ++ predicateType ++
      "\x22. Only SNP/TDX multiplatform V1 is supported")

/-! ### validatePlatformInfo (packages/verifier/src/sev/validation.ts, lines 380-410) -/

structure SnpPlatformInfo where
  smtEnabled : Bool
  tsmeEnabled : Bool
  eccEnabled : Bool
  raplDisabled : Bool
  ciphertextHidingDramEnabled : Bool
  aliasCheckComplete : Bool
  tioEnabled : Bool
deriving DecidableEq, Repr

/-- Translation of `validatePlatformInfo(reportInfo, required)`.  The
source interpolates `JSON.stringify` of both records into each message;
only the fixed descriptive prefix is kept here. -/
def validatePlatformInfo (reportInfo required : SnpPlatformInfo) : Except String Unit :=
  if reportInfo.smtEnabled ∧ ¬ required.smtEnabled then
    .error "Unauthorized platform feature SMT enabled."
  else if ¬ reportInfo.eccEnabled ∧ required.eccEnabled then
    .error "Required platform feature ECC not enabled."
  else if ¬ reportInfo.tsmeEnabled ∧ required.tsmeEnabled then
    .error "Required platform feature TSME not enabled."
  else if ¬ reportInfo.raplDisabled ∧ required.raplDisabled then
    .error "Required platform feature RAPL not disabled."
  else if ¬ reportInfo.ciphertextHidingDramEnabled ∧ required.ciphertextHidingDramEnabled then
    .error "Required ciphertext hiding in DRAM not enforced."
  else if ¬ reportInfo.aliasCheckComplete ∧ required.aliasCheckComplete then
    .error "Required memory alias check has not been completed."
  else if ¬ reportInfo.tioEnabled ∧ required.tioEnabled then
    .error "Required TIO not enabled."
  else
    .ok ()

/-! ### Verification document and orchestrator (packages/verifier/src/client.ts)

`Verifier.verifyBundle` sequences the four verification steps and keeps
a step-by-step `VerificationDocument`.  The steps themselves call out to
`verifyAttestation` (SEV-SNP chain + policy), `verifySigstoreBundle`
(DSSE cryptography) and `verifyCertificate` (X.509 parsing); those are
external effects from the orchestrator's point of view and enter the
model as oracle arguments giving each call's outcome.  The measurement
comparison (step 3) is pure and is the `compareMeasurements` defined
above.  `measurementFingerprint` is an async SHA-256 fingerprint; it is
passed in as a function argument `fp`. -/

inductive StepStatus where
  | pending
  | success
  | failed
deriving DecidableEq, Repr

structure VerificationStepState where
  status : StepStatus
  error : Option String := none
deriving DecidableEq, Repr

/-- The `steps` record of a `VerificationDocument`.  In the TypeScript
interface `verifyCertificate` is an optional key, hence `Option`. -/
structure VerificationSteps where
  fetchDigest : VerificationStepState
  verifyCode : VerificationStepState
  verifyEnclave : VerificationStepState
  compareMeasurements : VerificationStepState
  verifyCertificate : Option VerificationStepState := none
deriving DecidableEq, Repr

structure AttestationResponse where
  tlsPublicKeyFingerprint : Option String := none
  hpkePublicKey : Option String := none
  measurement : AttestationMeasurement
deriving DecidableEq, Repr

structure VerificationDocument where
  configRepo : String
  enclaveHost : String
  releaseDigest : String
  codeMeasurement : AttestationMeasurement
  enclaveMeasurement : AttestationResponse
  tlsPublicKey : String
  hpkePublicKey : String
  codeFingerprint : String
  enclaveFingerprint : String
  selectedRouterEndpoint : String
  securityVerified : Bool
  steps : VerificationSteps
deriving DecidableEq, Repr

/-- Translation of `Verifier.saveFailedVerificationDocument(steps, domain)`. -/
def saveFailedVerificationDocument (configRepo : String) (steps : VerificationSteps)
    (domain : String) : VerificationDocument :=
  { configRepo := configRepo
    enclaveHost := domain
    releaseDigest := ""
    codeMeasurement := { type := "", registers := [] }
    enclaveMeasurement := { measurement := { type := "", registers := [] } }
    tlsPublicKey := ""
    hpkePublicKey := ""
    codeFingerprint := ""
    enclaveFingerprint := ""
    selectedRouterEndpoint := domain
    securityVerified := false
    steps := steps }

/-- Translation of `Verifier.verifyBundle(bundle)` (the five-step
variant with a `verifyCertificate` step).  `digest` and `domain` are
the bundle fields the document records; `amdResult`, `codeResult` and
`certResult` are the outcomes of the three external verification calls
(`verifyAmdAttestation`, `verifySigstoreBundle`, `verifyCertificate`);
`fp` is `measurementFingerprint`.  Returns the function's result (the
re-raised error or the attestation response) paired with the
verification document saved on `this`. -/
def verifyBundle (configRepo digest domain : String)
    (amdResult : Except String AttestationResponse)
    (codeResult : Except String AttestationMeasurement)
    (certResult : Except String Unit)
    (fp : AttestationMeasurement → String) :
    Except String AttestationResponse × VerificationDocument :=
  let steps0 : VerificationSteps :=
    { fetchDigest := { status := .success }
      verifyCode := { status := .pending }
      verifyEnclave := { status := .pending }
      compareMeasurements := { status := .pending }
      verifyCertificate := some { status := .pending } }
  match amdResult with
  | .error e =>
      let steps1 := { steps0 with verifyEnclave := { status := .failed, error := some e } }
      (.error e, saveFailedVerificationDocument configRepo steps1 domain)
  | .ok amdVerification =>
      let steps1 := { steps0 with verifyEnclave := { status := .success } }
      match codeResult with
      | .error e =>
          let steps2 := { steps1 with verifyCode := { status := .failed, error := some e } }
          (.error e, saveFailedVerificationDocument configRepo steps2 domain)
      | .ok codeMeasurements =>
          let steps2 := { steps1 with verifyCode := { status := .success } }
          match compareMeasurements codeMeasurements amdVerification.measurement with
          | .error e =>
              let steps3 := { steps2 with compareMeasurements := { status := .failed, error := some e } }
              (.error e, saveFailedVerificationDocument configRepo steps3 domain)
          | .ok _ =>
              let steps3 := { steps2 with compareMeasurements := { status := .success } }
              match certResult with
              | .error e =>
                  let steps4 := { steps3 with verifyCertificate := some { status := .failed, error := some e } }
                  (.error e, saveFailedVerificationDocument configRepo steps4 domain)
              | .ok _ =>
                  let steps4 := { steps3 with verifyCertificate := some { status := .success } }
                  (.ok amdVerification,
                    { configRepo := configRepo
                      enclaveHost := domain
                      releaseDigest := digest
                      codeMeasurement := codeMeasurements
                      enclaveMeasurement := amdVerification
                      tlsPublicKey := amdVerification.tlsPublicKeyFingerprint.getD ""
                      hpkePublicKey := amdVerification.hpkePublicKey.getD ""
                      codeFingerprint := fp codeMeasurements
                      enclaveFingerprint := fp amdVerification.measurement
                      selectedRouterEndpoint := domain
                      securityVerified := true
                      steps := steps4 })

/-! ### Error classes (packages/verifier/src/errors.ts)

The SDK error hierarchy: `TinfoilError` is the base; `ConfigurationError`,
`FetchError` and `AttestationError` extend it; `VerificationError` and
`ValidationError` extend `AttestationError`.  `instanceof` tests are
class-hierarchy tests, so they are modelled on the class tag; the
`name` field is modelled separately because `isKeyConfigMismatchError`
duck-types on `error.name` rather than on the class. -/

inductive ErrClass where
  | tinfoilError
  | configurationError
  | fetchError
  | attestationError
  | verificationError
  | validationError
  | foreign
deriving DecidableEq, Repr

/-- A thrown JavaScript error: its class and its `name` property.
For the in-tree classes `name` mirrors the class; `foreign` covers
errors from outside the hierarchy (e.g. the EHBP layer's
`KeyConfigMismatchError`, whose `name` is its distinguishing mark). -/
structure JsError where
  cls : ErrClass
  name : String
deriving DecidableEq, Repr

/-- `e instanceof FetchError` - only the one class, it has no subclasses. -/
def isFetchError (e : JsError) : Bool :=
  e.cls = .fetchError

/-- `e instanceof FetchError || e instanceof AttestationError` -
`AttestationError` has the subclasses `VerificationError` and
`ValidationError`, which `instanceof` includes. -/
def isTransientInitError (e : JsError) : Bool :=
  e.cls = .fetchError ∨ e.cls = .attestationError ∨
    e.cls = .verificationError ∨ e.cls = .validationError

/-- `isKeyConfigMismatchError` (packages/tinfoil/src/secure-client.ts):
`error instanceof Error && error.name === 'KeyConfigMismatchError'`. -/
def isKeyConfigMismatchError (e : JsError) : Bool :=
  e.name = "KeyConfigMismatchError"

/-! ### withRetry (packages/verifier/src/client.ts, lines 486-496)

```
const MAX_RETRIES = 2;
async function withRetry<T>(fn: () => Promise<T>): Promise<T> {
  for (let i = 0; i <= MAX_RETRIES; i++) {
    try { return await fn(); }
    catch (e) { if (i === MAX_RETRIES || !(e instanceof FetchError)) throw e; }
    await new Promise(r => setTimeout(r, 500 * Math.pow(2, i)));
  }
  throw new Error('unreachable');
}
```

The wrapped `fn` is modelled as a map from the attempt index to that
invocation's outcome.  The backoff `setTimeout` has no effect on the
result and is not recorded.  The model returns the propagated result
together with the total number of invocations of `fn`. -/

def MAX_RETRIES : Nat := 2

/-- The retry loop from iteration `i` on; `fuel = MAX_RETRIES - i` so
the `i = MAX_RETRIES` loop-exit test is the `fuel = 0` case. -/
def withRetryGo (f : Nat → Except JsError α) : Nat → Nat → Except JsError α × Nat
  | i, 0 =>
      match f i with
      | .ok v => (.ok v, i + 1)
      | .error e => (.error e, i + 1)
  | i, fuel + 1 =>
      match f i with
      | .ok v => (.ok v, i + 1)
      | .error e =>
          if isFetchError e then withRetryGo f (i + 1) fuel
          else (.error e, i + 1)

/-- `withRetry(fn)`: result and number of invocations of `fn`. -/
def withRetry (f : Nat → Except JsError α) : Except JsError α × Nat :=
  withRetryGo f 0 MAX_RETRIES

/-! ### SecureClient (packages/tinfoil/src/secure-client.ts)

The client's mutable state is `initPromise` (the cached single-flight
initialization promise) and the derived state cleared by
`clearDerivedState()`: the transport, the verification document and the
two resolved URLs.  A settled cached promise is modelled as
`some outcome`; `none` models "no cached promise" (fresh client, or
after `reset()`).  The effects of one `initSecureClient()` call are
summarised by its outcome: on success it yields the new derived values,
on failure it throws.  (A failed `initSecureClient` call can leave
partially-set derived fields, but every `ready()` path that observes
the failure clears them - via `clearDerivedState()` or `reset()` -
before control returns, so the model applies derived values only on
success.)

`ready()` (lines 168-186):

```
if (!this.initPromise) {
  this.initPromise = this.initSecureClient().catch(async err => {
    if (err instanceof FetchError || err instanceof AttestationError) {
      this.clearDerivedState();
      await new Promise(r => setTimeout(r, INIT_RETRY_DELAY_MS));
      return this.initSecureClient().catch(retryErr => {
        this.reset();
        throw retryErr;
      });
    }
    this.reset();
    throw err;
  });
}
return this.initPromise;
```

`fetch` (lines 304-320) awaits `ready()`, delegates to the transport,
and on `KeyConfigMismatchError` resets, re-runs `ready()` and re-sends
once.  The observable actions are recorded as an event trace. -/

def INIT_RETRY_DELAY_MS : Nat := 1000

/-- Transports are opaque handles created by `createTransport`. -/
abbrev Transport : Type := Nat

/-- The derived state of a `SecureClient` (the fields cleared by
`clearDerivedState()`). -/
structure DerivedState where
  transport : Option Transport
  verificationDocument : VerificationDocument
  resolvedEnclaveURL : Option String
  resolvedBaseURL : Option String

/-- `createPendingVerificationDocument(configRepo)`: the all-pending
document (four step keys; the optional `verifyCertificate` is absent). -/
def createPendingVerificationDocument (configRepo : String) : VerificationDocument :=
  { configRepo := configRepo
    enclaveHost := ""
    releaseDigest := ""
    codeMeasurement := { type := "", registers := [] }
    enclaveMeasurement := { measurement := { type := "", registers := [] } }
    tlsPublicKey := ""
    hpkePublicKey := ""
    codeFingerprint := ""
    enclaveFingerprint := ""
    selectedRouterEndpoint := ""
    securityVerified := false
    steps :=
      { fetchDigest := { status := .pending }
        verifyCode := { status := .pending }
        verifyEnclave := { status := .pending }
        compareMeasurements := { status := .pending }
        verifyCertificate := none } }

/-- `clearDerivedState()`: transport dropped, document back to pending,
resolved URLs cleared. -/
def clearedDerivedState (configRepo : String) : DerivedState :=
  { transport := none
    verificationDocument := createPendingVerificationDocument configRepo
    resolvedEnclaveURL := none
    resolvedBaseURL := none }

structure ClientState where
  initPromise : Option (Except JsError Unit)
  derived : DerivedState

/-- `reset()`: `initPromise = null` and `clearDerivedState()`. -/
def resetState (configRepo : String) : ClientState :=
  { initPromise := none, derived := clearedDerivedState configRepo }

/-- The values a successful `initSecureClient()` run stores in the
derived state. -/
structure InitSuccess where
  transport : Transport
  doc : VerificationDocument
  enclaveURL : String
  baseURL : String

/-- Outcome of one `initSecureClient()` call. -/
def InitResult : Type := Except JsError InitSuccess

/-- Observable actions of `ready()` / `fetch`, in order. -/
inductive Event where
  | initAttempt
  | clearDerived
  | delay (ms : Nat)
  | reset
  | transportSend
deriving DecidableEq, Repr

def countInits (evs : List Event) : Nat :=
  (evs.filter (· = Event.initAttempt)).length

def countSends (evs : List Event) : Nat :=
  (evs.filter (· = Event.transportSend)).length

/-- Apply a successful init's values to the client state, leaving the
(settled, fulfilled) promise cached. -/
def applyInit (_s : ClientState) (d : InitSuccess) : ClientState :=
  { initPromise := some (.ok ())
    derived :=
      { transport := some d.transport
        verificationDocument := d.doc
        resolvedEnclaveURL := some d.enclaveURL
        resolvedBaseURL := some d.baseURL } }

/-- One `await client.ready()` call.  `o1` and `o2` are the outcomes of
the first and (if reached) second `initSecureClient()` call.  Returns
the state after the promise settles, the outcome the awaiting caller
observes, and the event trace. -/
def runReady (configRepo : String) (s : ClientState) (o1 o2 : InitResult) :
    ClientState × Except JsError Unit × List Event :=
  match s.initPromise with
  | some r => (s, r, [])
  | none =>
      match o1 with
      | .ok d => (applyInit s d, .ok (), [.initAttempt])
      | .error e =>
          if isTransientInitError e then
            -- clearDerivedState(); wait INIT_RETRY_DELAY_MS; retry once
            let s1 : ClientState := { s with derived := clearedDerivedState configRepo }
            match o2 with
            | .ok d =>
                (applyInit s1 d, .ok (),
                  [.initAttempt, .clearDerived, .delay INIT_RETRY_DELAY_MS, .initAttempt])
            | .error e2 =>
                (resetState configRepo, .error e2,
                  [.initAttempt, .clearDerived, .delay INIT_RETRY_DELAY_MS, .initAttempt, .reset])
          else
            (resetState configRepo, .error e, [.initAttempt, .reset])

/-- One `client.fetch(input, init)` call.  `t1` is the outcome of the
first transport send; if the recovery path runs, `o1'`/`o2'` feed the
re-attestation `ready()` and `t2` is the outcome of the re-sent
request (same `input`/`init`). -/
def runFetch (configRepo : String) (s : ClientState) (o1 o2 : InitResult)
    (t1 : Except JsError Nat) (o1' o2' : InitResult) (t2 : Except JsError Nat) :
    ClientState × Except JsError Nat × List Event :=
  let (s1, r1, ev1) := runReady configRepo s o1 o2
  match r1 with
  | .error e => (s1, .error e, ev1)
  | .ok _ =>
      match t1 with
      | .ok resp => (s1, .ok resp, ev1 ++ [.transportSend])
      | .error e =>
          if isKeyConfigMismatchError e then
            let s2 := resetState configRepo
            let (s3, r2, ev2) := runReady configRepo s2 o1' o2'
            match r2 with
            | .error e2 => (s3, .error e2, ev1 ++ [.transportSend, .reset] ++ ev2)
            | .ok _ => (s3, t2, ev1 ++ [.transportSend, .reset] ++ ev2 ++ [.transportSend])
          else
            (s1, .error e, ev1 ++ [.transportSend])

/-! ### dcode SAN decoder (packages/verifier/src/dcode.ts)

```
const B32 = 'ABCDEFGHIJKLMNOPQRSTUVWXYZ234567';
function base32Decode(input) {
  const s = input.toUpperCase().replace(/=+$/, '');
  if (!s) return new Uint8Array(0);
  const out = new Uint8Array(Math.floor(s.length * 5 / 8));
  let bits = 0, val = 0, idx = 0;
  for (const c of s) {
    const i = B32.indexOf(c);
    if (i < 0) throw new AttestationError(`Invalid base32: ${c}`);
    val = (val << 5) | i;
    if ((bits += 5) >= 8) out[idx++] = (val >> (bits -= 8)) & 0xff;
  }
  return out;
}
export function decodeDomains(domains, prefix) {
  const pattern = `.${prefix}.`;
  const chunks = domains
    .filter(d => d.includes(pattern))
    .sort((a, b) => +a.slice(0, 2) - +b.slice(0, 2))
    .map(d => d.split('.')[0].slice(2))
    .join('');
  if (!chunks) throw new AttestationError(`No domains with prefix: ${prefix}`);
  return base32Decode(chunks);
}
```

Strings are handled at `List Char` level.  `val` is kept as an
unbounded `Nat`: in JS `(val << 5) | i` wraps at 32 bits, but each
emitted byte `(val >> (bits - 8)) & 0xff` reads only bits below 12 of
`val` (since `bits <= 12` at every emission), which the wrap never
touches, so the emitted bytes agree.  `out` is preallocated at
`floor(len * 5 / 8)` in JS, which is exactly the number of emissions
the loop performs, so accumulating a list is equivalent.

`Array.prototype.sort` is required to be stable by ECMAScript, and any
two stable sorts under the same (total, transitive) comparison agree,
so the sort is modelled by Mathlib's stable `List.insertionSort`.  The
comparator coerces the first two characters of each name with unary
plus; when they are decimal digits that is their two-digit value
(`jsIndex`), and when they are not the coercion yields `NaN`, for which
the ECMAScript sort order is implementation-defined - the theorems
below therefore restrict to digit-prefixed names. -/

def b32Alphabet : List Char := "ABCDEFGHIJKLMNOPQRSTUVWXYZ234567".toList

/-- `B32.indexOf(c)`, with `none` for `-1`. -/
def b32IndexOf (c : Char) : Option Nat :=
  go b32Alphabet 0
where
  go : List Char → Nat → Option Nat
    | [], _ => none
    | x :: xs, n => if x = c then some n else go xs (n + 1)

/-- `.replace(/=+$/, '')`: strip trailing `'='` characters. -/
def stripPad (cs : List Char) : List Char :=
  (cs.reverse.dropWhile (· = '=')).reverse

/-- The decode loop of `base32Decode`, over (remaining chars,
accumulator `val`, bit count `bits`, emitted bytes in reverse). -/
def b32Run : List Char → Nat → Nat → List Nat → Except String (List Nat)
  | [], _, _, acc => .ok acc.reverse
  | c :: cs, val, bits, acc =>
      match b32IndexOf c with
      | none => .error ("Invalid base32: " ++ c.toString)
      | some i =>
          let val' := (val <<< 5) ||| i
          let bits' := bits + 5
          if 8 ≤ bits' then
            b32Run cs val' (bits' - 8) ((val' >>> (bits' - 8)) % 256 :: acc)
          else
            b32Run cs val' bits' acc

/-- `base32Decode(input)`; bytes are `Nat`s below 256. -/
def base32Decode (input : List Char) : Except String (List Nat) :=
  b32Run (stripPad (input.map Char.toUpper)) 0 0 []

/-- `+d.slice(0, 2)` for names whose first two characters are decimal
digits; other names coerce to `NaN` in JS (see the section comment)
and are given an arbitrary key here. -/
def jsIndex (d : String) : Nat :=
  match d.toList with
  | c0 :: c1 :: _ =>
      if c0.isDigit ∧ c1.isDigit then 10 * (c0.toNat - 48) + (c1.toNat - 48) else 0
  | _ => 0

/-- Whether a name is well-formed for the sort comparator: its first
two characters are decimal digits. -/
def twoDigitIndexed (d : String) : Bool :=
  match d.toList with
  | c0 :: c1 :: _ => c0.isDigit ∧ c1.isDigit
  | _ => false

/-- The comparator's ordering: by two-digit numeric index. -/
def idxLe (a b : String) : Prop := jsIndex a ≤ jsIndex b

instance : DecidableRel idxLe := fun a b =>
  inferInstanceAs (Decidable (jsIndex a ≤ jsIndex b))

instance : IsTotal String idxLe := ⟨fun a b => Nat.le_total (jsIndex a) (jsIndex b)⟩

instance : IsTrans String idxLe := ⟨fun _ _ _ => Nat.le_trans⟩

/-- Strict version of `idxLe`, used to compare sorted lists. -/
def idxLt (a b : String) : Prop := jsIndex a < jsIndex b

instance : IsAntisymm String idxLt :=
  ⟨fun _ _ h1 h2 => absurd h2 (Nat.lt_asymm h1)⟩

/-- `d.includes('.' + p + '.')`: substring containment. -/
def hasDotPattern (p : String) (d : String) : Bool :=
  decide (("." ++ p ++ ".").toList <:+: d.toList)

/-- `d.split('.')[0].slice(2)`: the characters of the first label after
the two-digit index. -/
def chunkOf (d : String) : List Char :=
  (d.toList.takeWhile (· ≠ '.')).drop 2

/-- The concatenated chunk characters of the names matching
`'.' + p + '.'`, in stable-sorted index order. -/
def chunksOf (domains : List String) (p : String) : List Char :=
  (((domains.filter (hasDotPattern p)).insertionSort idxLe).map chunkOf).flatten

/-- `decodeDomains(domains, prefix)`. -/
def decodeDomains (domains : List String) (p : String) : Except String (List Nat) :=
  let chunks := chunksOf domains p
  if chunks.isEmpty then .error ("No domains with prefix: " ++ p)
  else base32Decode chunks

/-- `bytesToHex` (dcode.ts): lowercase hex, two digits per byte. -/
def byteToHex (b : Nat) : List Char :=
  [Nat.digitChar (b / 16 % 16), Nat.digitChar (b % 16)]

def bytesToHex (bs : List Nat) : String :=
  ⟨(bs.map byteToHex).flatten⟩

/-! ### Domain / SAN matching (packages/verifier/src/cert-verify.ts)

```
function getParentDomain(domain) {
  const parts = domain.split('.');
  if (parts.length <= 2) return domain;
  return parts.slice(1).join('.');
}
function domainMatchesSans(sans, expectedDomain) {
  const parentDomain = getParentDomain(expectedDomain);
  for (const san of sans) {
    if (san === expectedDomain) return true;
    if (san.startsWith('*.') && san.substring(2) === parentDomain
        && expectedDomain !== parentDomain) return true;
  }
  return false;
}
```

`split('.')` keeps empty components and returns `[""]` on the empty
string; it is modelled character-wise by `splitDot`, with `joinDot` for
`join('.')`. -/

/-- `cs.split('.')`: split at every `'.'`, keeping empty components;
never returns `[]`. -/
def splitDot : List Char → List (List Char)
  | [] => [[]]
  | c :: rest =>
      if c = '.' then [] :: splitDot rest
      else
        match splitDot rest with
        | [] => [[c]]
        | h :: t => (c :: h) :: t

/-- `parts.join('.')`. -/
def joinDot : List (List Char) → List Char
  | [] => []
  | [x] => x
  | x :: y :: t => x ++ '.' :: joinDot (y :: t)

/-- `getParentDomain(domain)`. -/
def getParentDomain (domain : String) : String :=
  let parts := splitDot domain.toList
  if parts.length ≤ 2 then domain
  else ⟨joinDot (parts.drop 1)⟩

/-- `san.startsWith('*.')`. -/
def startsWithStarDot (san : String) : Bool :=
  decide (['*', '.'] <+: san.toList)

/-- `san.substring(2)`. -/
def substringFrom2 (san : String) : String :=
  ⟨san.toList.drop 2⟩

/-- `domainMatchesSans(sans, expectedDomain)`. -/
def domainMatchesSans (sans : List String) (expectedDomain : String) : Bool :=
  let parentDomain := getParentDomain expectedDomain
  sans.any fun san =>
    san == expectedDomain ||
      (startsWithStarDot san && substringFrom2 san == parentDomain &&
        !(expectedDomain == parentDomain))

/-- The wildcard rule as the claim words it: `'*.X'` matches `D` iff
`D` consists of exactly one label followed by `'.X'`.  Stated from the
claim's words (not from the source) in order to compare the two. -/
def claimWildcardMatches (x d : String) : Prop :=
  ∃ lbl : String, lbl ≠ "" ∧ ('.' ∉ lbl.toList) ∧ d = lbl ++ "." ++ x

/-! ## Theorems -/

/-- `validatePlatformInfo` succeeds exactly when none of its seven
guard conditions fires. -/
theorem validatePlatformInfo_ok_iff (a b : SnpPlatformInfo) :
    validatePlatformInfo a b = .ok () ↔
      (¬(a.smtEnabled ∧ ¬b.smtEnabled) ∧ ¬(¬a.eccEnabled ∧ b.eccEnabled) ∧
        ¬(¬a.tsmeEnabled ∧ b.tsmeEnabled) ∧ ¬(¬a.raplDisabled ∧ b.raplDisabled) ∧
        ¬(¬a.ciphertextHidingDramEnabled ∧ b.ciphertextHidingDramEnabled) ∧
        ¬(¬a.aliasCheckComplete ∧ b.aliasCheckComplete) ∧
        ¬(¬a.tioEnabled ∧ b.tioEnabled)) := by
  unfold validatePlatformInfo
  split_ifs with h1 h2 h3 h4 h5 h6 h7 <;> simp_all

/-! ### C3: platform-info flag checking -/

/-- C3, counterexample.  The claim says validation rejects whenever the
report enables a platform feature the required platform info does not
allow, for every one of the seven flags.  For `tsmeEnabled` this fails:
a report with TSME enabled passes against a requirement that does not
allow TSME - the code checks the "unauthorized" direction only for
`smtEnabled`. -/
theorem validatePlatformInfo_tsme_not_rejected :
    Tinfoil.validatePlatformInfo
      { smtEnabled := false, tsmeEnabled := true, eccEnabled := false, raplDisabled := false,
        ciphertextHidingDramEnabled := false, aliasCheckComplete := false, tioEnabled := false }
      { smtEnabled := false, tsmeEnabled := false, eccEnabled := false, raplDisabled := false,
        ciphertextHidingDramEnabled := false, aliasCheckComplete := false, tioEnabled := false }
      = .ok () := by
  decide

/-- C3, amended.  `validatePlatformInfo` is not two-sided per flag: it
succeeds exactly when (i) the report does not enable SMT unless the
requirement allows it ("unauthorized" direction, applied to
`smtEnabled` only), and (ii) the report has every feature the
requirement mandates among `eccEnabled`, `tsmeEnabled`, `raplDisabled`,
`ciphertextHidingDramEnabled`, `aliasCheckComplete`, `tioEnabled`
("required" direction, applied to those six only). -/
theorem validatePlatformInfo_characterization :
    ∀ rs rt re rr rc ra ri qs qt qe qr qc qa qi : Bool,
      (Tinfoil.validatePlatformInfo
          { smtEnabled := rs, tsmeEnabled := rt, eccEnabled := re, raplDisabled := rr,
            ciphertextHidingDramEnabled := rc, aliasCheckComplete := ra, tioEnabled := ri }
          { smtEnabled := qs, tsmeEnabled := qt, eccEnabled := qe, raplDisabled := qr,
            ciphertextHidingDramEnabled := qc, aliasCheckComplete := qa, tioEnabled := qi }
        = .ok ()) ↔
      ((rs = true → qs = true) ∧ (qe = true → re = true) ∧ (qt = true → rt = true) ∧
        (qr = true → rr = true) ∧ (qc = true → rc = true) ∧ (qa = true → ra = true) ∧
        (qi = true → ri = true)) := by
  intro rs rt re rr rc ra ri qs qt qe qr qc qa qi
  rw [validatePlatformInfo_ok_iff]
  refine and_congr ?_ (and_congr ?_ (and_congr ?_ (and_congr ?_ (and_congr ?_
    (and_congr ?_ ?_))))) <;> tauto

/-- C3 amended, witness: a requirement mandating TSME rejects a report
without TSME, and the all-false requirement accepts the all-false
report. -/
theorem validatePlatformInfo_characterization_witness :
    Tinfoil.validatePlatformInfo
      { smtEnabled := false, tsmeEnabled := false, eccEnabled := false, raplDisabled := false,
        ciphertextHidingDramEnabled := false, aliasCheckComplete := false, tioEnabled := false }
      { smtEnabled := false, tsmeEnabled := false, eccEnabled := false, raplDisabled := false,
        ciphertextHidingDramEnabled := false, aliasCheckComplete := false, tioEnabled := false }
      = .ok () :=
  (validatePlatformInfo_characterization false false false false false false false
      false false false false false false false).mpr
    ⟨fun h => h, fun h => h, fun h => h, fun h => h, fun h => h, fun h => h, fun h => h⟩

/-! ### C2: release-digest comparison in verifySigstoreBundle -/

/-- C2, counterexample.  The claim says the expected digest and
`payload.subject[0].digest.sha256` are compared case-insensitively as
hex, so two digests denoting the same bytes but differing in letter
case would be accepted.  The code compares the strings with `!==`: for
the all-`a` digest in lower case against the same digest in upper case
(same hex value), verification throws. -/
theorem sigstoreDigestCaseMismatchRejected :
    ("aaaaaaaaaaaaaaaaaaaaaaaaaaaaaaaaaaaaaaaaaaaaaaaaaaaaaaaaaaaaaaaa" : String).toList.map
          Char.toUpper
        = ("AAAAAAAAAAAAAAAAAAAAAAAAAAAAAAAAAAAAAAAAAAAAAAAAAAAAAAAAAAAAAAAA" : String).toList ∧
      ∃ msg, sigstoreVerifyPayload "application/vnd.in-toto+json"
        PredicateType.SnpTdxMultiplatformV1
        "AAAAAAAAAAAAAAAAAAAAAAAAAAAAAAAAAAAAAAAAAAAAAAAAAAAAAAAAAAAAAAAA"
        (some "aabb")
        "aaaaaaaaaaaaaaaaaaaaaaaaaaaaaaaaaaaaaaaaaaaaaaaaaaaaaaaaaaaaaaaa"
        = .error msg :=
  ⟨by decide, _, rfl⟩

/-- C2, amended.  The digest comparison is exact, case-sensitive string
equality: for a verified in-toto payload (correct payload type, SNP/TDX
multiplatform predicate with an `snp_measurement`), verification
succeeds iff the expected digest equals `subject[0].digest.sha256` as a
string, and otherwise throws the release-digest-mismatch error. -/
theorem sigstoreDigestCompareExact (digest subj m : String) :
    ((∃ r, sigstoreVerifyPayload "application/vnd.in-toto+json"
        PredicateType.SnpTdxMultiplatformV1 subj (some m) digest = .ok r) ↔ digest = subj) ∧
      (digest ≠ subj →
        sigstoreVerifyPayload "application/vnd.in-toto+json"
            PredicateType.SnpTdxMultiplatformV1 subj (some m) digest
          = .error ("Release digest mismatch: The release digest from GitHub (" ++ digest ++
              ") does not match the digest in the sigstore bundle (" ++ subj ++ ")")) := by
  unfold sigstoreVerifyPayload
  by_cases h : digest = subj <;> simp [h]

/-- C2 amended, witness: equal digest strings are accepted. -/
theorem sigstoreDigestCompareExact_witness :
    (∃ r, sigstoreVerifyPayload "application/vnd.in-toto+json"
      PredicateType.SnpTdxMultiplatformV1 "ff00" (some "m0") "ff00" = .ok r) :=
  (sigstoreDigestCompareExact "ff00" "ff00" "m0").1.mpr rfl

/-! ### C4: compareMeasurements -/

/-- The elementwise register check of `compareMeasurements` (length
equality plus `every((reg, i) => reg === b.registers[i])`) holds
exactly for equal register lists. -/
theorem registersEqCond (xs ys : List String) :
    (xs.length = ys.length ∧
        ((List.range xs.length).all (fun i => xs.getD i "" == ys.getD i "")) = true)
      ↔ xs = ys := by
  constructor
  · rintro ⟨hlen, hall⟩
    apply List.ext_getElem hlen
    intro i h1 h2
    have hi := beq_iff_eq.mp (List.all_eq_true.mp hall i (List.mem_range.mpr h1))
    rwa [List.getD_eq_getElem xs "" h1, List.getD_eq_getElem ys "" h2] at hi
  · rintro rfl
    exact ⟨rfl, by simp⟩

/-- C4.  `compareMeasurements` is reflexive; on equal types it succeeds
iff the register lists are equal; on the `SnpTdxMultiplatformV1` /
`SevGuestV2` cross pair (either order) with non-empty register lists it
succeeds iff the first registers agree; and on every other pair of
distinct types it throws. -/
theorem compareMeasurements_spec (a b : AttestationMeasurement) :
    (compareMeasurements a a = .ok ()) ∧
    (a.type = b.type → (compareMeasurements a b = .ok () ↔ a.registers = b.registers)) ∧
    (((a.type = PredicateType.SnpTdxMultiplatformV1 ∧ b.type = PredicateType.SevGuestV2) ∨
        (a.type = PredicateType.SevGuestV2 ∧ b.type = PredicateType.SnpTdxMultiplatformV1)) →
      a.registers ≠ [] → b.registers ≠ [] →
      (compareMeasurements a b = .ok () ↔ a.registers.head? = b.registers.head?)) ∧
    (a.type ≠ b.type →
      ¬((a.type = PredicateType.SnpTdxMultiplatformV1 ∧ b.type = PredicateType.SevGuestV2) ∨
          (a.type = PredicateType.SevGuestV2 ∧ b.type = PredicateType.SnpTdxMultiplatformV1)) →
      ∃ msg, compareMeasurements a b = .error msg) := by
  refine ⟨?_, ?_, ?_, ?_⟩
  · simp [compareMeasurements]
  · intro h
    unfold compareMeasurements
    rw [if_pos h]
    by_cases hr : a.registers = b.registers
    · have hc := (registersEqCond a.registers b.registers).mpr hr
      rw [if_neg (fun hcond => hcond.elim (fun h1 => h1 hc.1) (fun h2 => h2 hc.2))]
      simp [hr]
    · have hc : ¬(a.registers.length = b.registers.length ∧
          ((List.range a.registers.length).all
            (fun i => a.registers.getD i "" == b.registers.getD i "")) = true) :=
        fun hh => hr ((registersEqCond a.registers b.registers).mp hh)
      rw [if_pos (Decidable.byCases
        (fun hl : a.registers.length = b.registers.length =>
          Or.inr (fun hall => hc ⟨hl, hall⟩))
        (fun hl => Or.inl hl))]
      simp [hr]
  · intro hpair ha hb
    have hne : a.type ≠ b.type := by
      rcases hpair with ⟨h1, h2⟩ | ⟨h1, h2⟩ <;> rw [h1, h2] <;> decide
    unfold compareMeasurements
    rw [if_neg hne]
    have hlen : ¬(a.registers.length < 1 ∨ b.registers.length < 1) := by
      push_neg
      exact ⟨List.length_pos.mpr ha, List.length_pos.mpr hb⟩
    obtain ⟨x, xs, hx⟩ := List.exists_cons_of_ne_nil ha
    obtain ⟨y, ys, hy⟩ := List.exists_cons_of_ne_nil hb
    rcases hpair with ⟨h1, h2⟩ | ⟨h1, h2⟩
    · rw [if_pos ⟨h1, h2⟩, if_neg hlen, hx, hy]
      by_cases hxy : x = y <;> simp [hxy]
    · rw [if_neg (fun hh => hne (hh.1.trans h2.symm)), if_pos ⟨h1, h2⟩, if_neg hlen, hx, hy]
      by_cases hxy : x = y <;> simp [hxy]
  · intro hne hnp
    unfold compareMeasurements
    rw [if_neg hne, if_neg (fun hh => hnp (Or.inl hh)), if_neg (fun hh => hnp (Or.inr hh))]
    exact ⟨_, rfl⟩

/-- C4, witness: the cross-type comparison accepts two measurements
whose first registers agree, and the same-type comparison accepts equal
register lists. -/
theorem compareMeasurements_spec_witness :
    compareMeasurements
        { type := PredicateType.SnpTdxMultiplatformV1, registers := ["m0", "r1", "r2"] }
        { type := PredicateType.SevGuestV2, registers := ["m0"] }
      = .ok () :=
  ((compareMeasurements_spec
      { type := PredicateType.SnpTdxMultiplatformV1, registers := ["m0", "r1", "r2"] }
      { type := PredicateType.SevGuestV2, registers := ["m0"] }).2.2.1
    (Or.inl ⟨rfl, rfl⟩) (by decide) (by decide)).mpr rfl

/-! ### C7: retry helper of the bundle assembler -/

/-- The retry loop makes at least one invocation from position `i`. -/
theorem withRetryGo_count_lb (f : Nat → Except JsError α) (i fuel : Nat) :
    i < (withRetryGo f i fuel).2 := by
  induction fuel generalizing i with
  | zero => cases hf : f i <;> simp [withRetryGo, hf]
  | succ fuel ih =>
      cases hf : f i with
      | ok v => simp [withRetryGo, hf]
      | error e =>
          by_cases hfe : isFetchError e = true
          · simpa [withRetryGo, hf, hfe] using Nat.lt_of_succ_lt (Nat.succ_lt_succ (ih (i + 1)))
          · simp [withRetryGo, hf, hfe]

/-- The retry loop makes at most `fuel + 1` invocations from `i`. -/
theorem withRetryGo_count_ub (f : Nat → Except JsError α) (i fuel : Nat) :
    (withRetryGo f i fuel).2 ≤ i + fuel + 1 := by
  induction fuel generalizing i with
  | zero => cases hf : f i <;> simp [withRetryGo, hf]
  | succ fuel ih =>
      cases hf : f i with
      | ok v => simp [withRetryGo, hf]; try omega
      | error e =>
          by_cases hfe : isFetchError e = true
          · have := ih (i + 1)
            simp only [withRetryGo, hf, hfe, if_pos]
            omega
          · simp [withRetryGo, hf, hfe]; try omega

/-- The retry loop propagates the outcome of its last invocation. -/
theorem withRetryGo_result (f : Nat → Except JsError α) (i fuel : Nat) :
    (withRetryGo f i fuel).1 = f ((withRetryGo f i fuel).2 - 1) := by
  induction fuel generalizing i with
  | zero => cases hf : f i <;> simp [withRetryGo, hf]
  | succ fuel ih =>
      cases hf : f i with
      | ok v => simp [withRetryGo, hf]
      | error e =>
          by_cases hfe : isFetchError e = true
          · simpa [withRetryGo, hf, hfe] using ih (i + 1)
          · simp [withRetryGo, hf, hfe]

/-- Every invocation below the last threw a `FetchError`. -/
theorem withRetryGo_reinvoke (f : Nat → Except JsError α) (i fuel : Nat) :
    ∀ j, i ≤ j → j + 1 < (withRetryGo f i fuel).2 →
      ∃ e, f j = .error e ∧ isFetchError e = true := by
  induction fuel generalizing i with
  | zero =>
      intro j hij hj
      cases hf : f i <;> simp [withRetryGo, hf] at hj <;> omega
  | succ fuel ih =>
      intro j hij hj
      cases hf : f i with
      | ok v => simp [withRetryGo, hf] at hj; omega
      | error e =>
          by_cases hfe : isFetchError e = true
          · rcases Nat.eq_or_lt_of_le hij with rfl | hlt
            · exact ⟨e, hf, hfe⟩
            · simp only [withRetryGo, hf, hfe, if_pos] at hj
              exact ih (i + 1) j hlt hj
          · simp [withRetryGo, hf, hfe] at hj; omega

/-- C7.  `withRetry` invokes the wrapped fetch at most 3 times
(`MAX_RETRIES = 2`); an invocation beyond the first happens only when
the previous attempt threw a `FetchError`; and when the first attempt
throws anything that is not a `FetchError` (e.g. a parse error), the
function is invoked exactly once and that error propagates. -/
theorem withRetry_spec (f : Nat → Except JsError α) :
    ((withRetry f).2 ≤ 3) ∧
    (∀ j, j + 1 < (withRetry f).2 → ∃ e, f j = .error e ∧ isFetchError e = true) ∧
    (∀ e, f 0 = .error e → isFetchError e = false →
      (withRetry f).2 = 1 ∧ (withRetry f).1 = .error e) := by
  refine ⟨withRetryGo_count_ub f 0 MAX_RETRIES, ?_, ?_⟩
  · intro j hj
    exact withRetryGo_reinvoke f 0 MAX_RETRIES j (Nat.zero_le j) hj
  · intro e hf0 hfe
    simp [withRetry, MAX_RETRIES, withRetryGo, hf0, hfe]

/-- C7, witness: a first attempt failing with a `TypeError`-like
non-fetch error is not retried, and the error propagates. -/
theorem withRetry_spec_witness :
    (withRetry (fun _ => (.error ⟨.foreign, "TypeError"⟩ : Except JsError Nat))).2 = 1 ∧
      (withRetry (fun _ => (.error ⟨.foreign, "TypeError"⟩ : Except JsError Nat))).1
        = .error ⟨.foreign, "TypeError"⟩ :=
  (withRetry_spec (fun _ => (.error ⟨.foreign, "TypeError"⟩ : Except JsError Nat))).2.2
    ⟨.foreign, "TypeError"⟩ rfl rfl

/-! ### C1: verifyBundle orchestration -/

/-- C1.  `verifyBundle` runs verifyEnclave, verifyCode,
compareMeasurements, verifyCertificate in that order, with
`fetchDigest` marked success at entry.  If a step throws, the saved
document has `securityVerified = false`, that step marked failed with
the error, the later steps still pending, and the error is re-raised.
If every step succeeds, all five steps are success,
`securityVerified = true`, and the attestation response is returned. -/
theorem verifyBundle_spec (configRepo digest domain : String)
    (amdR : Except String AttestationResponse)
    (codeR : Except String AttestationMeasurement)
    (certR : Except String Unit) (fp : AttestationMeasurement → String)
    (r : Except String AttestationResponse) (doc : VerificationDocument)
    (hrun : verifyBundle configRepo digest domain amdR codeR certR fp = (r, doc)) :
    (doc.steps.fetchDigest.status = .success) ∧
    (∀ e, amdR = .error e →
      r = .error e ∧ doc.securityVerified = false ∧
        doc.steps.verifyEnclave = { status := .failed, error := some e } ∧
        doc.steps.verifyCode.status = .pending ∧
        doc.steps.compareMeasurements.status = .pending ∧
        doc.steps.verifyCertificate = some { status := .pending }) ∧
    (∀ a e, amdR = .ok a → codeR = .error e →
      r = .error e ∧ doc.securityVerified = false ∧
        doc.steps.verifyEnclave.status = .success ∧
        doc.steps.verifyCode = { status := .failed, error := some e } ∧
        doc.steps.compareMeasurements.status = .pending ∧
        doc.steps.verifyCertificate = some { status := .pending }) ∧
    (∀ a c e, amdR = .ok a → codeR = .ok c →
      compareMeasurements c a.measurement = .error e →
      r = .error e ∧ doc.securityVerified = false ∧
        doc.steps.verifyEnclave.status = .success ∧
        doc.steps.verifyCode.status = .success ∧
        doc.steps.compareMeasurements = { status := .failed, error := some e } ∧
        doc.steps.verifyCertificate = some { status := .pending }) ∧
    (∀ a c e, amdR = .ok a → codeR = .ok c →
      compareMeasurements c a.measurement = .ok () → certR = .error e →
      r = .error e ∧ doc.securityVerified = false ∧
        doc.steps.verifyEnclave.status = .success ∧
        doc.steps.verifyCode.status = .success ∧
        doc.steps.compareMeasurements.status = .success ∧
        doc.steps.verifyCertificate = some { status := .failed, error := some e }) ∧
    (∀ a c, amdR = .ok a → codeR = .ok c →
      compareMeasurements c a.measurement = .ok () → certR = .ok () →
      r = .ok a ∧ doc.securityVerified = true ∧
        doc.steps.verifyEnclave.status = .success ∧
        doc.steps.verifyCode.status = .success ∧
        doc.steps.compareMeasurements.status = .success ∧
        doc.steps.verifyCertificate = some { status := .success }) := by
  cases amdR with
  | error e0 =>
      simp only [verifyBundle] at hrun
      injection hrun with h1 h2
      subst h1; subst h2
      refine ⟨rfl, ?_, ?_, ?_, ?_, ?_⟩
      · intro e he
        injection he with h; subst h
        exact ⟨rfl, rfl, rfl, rfl, rfl, rfl⟩
      · intro a e ha; exact absurd ha (by simp)
      · intro a c e ha; exact absurd ha (by simp)
      · intro a c e ha; exact absurd ha (by simp)
      · intro a c ha; exact absurd ha (by simp)
  | ok a0 =>
      cases codeR with
      | error e0 =>
          simp only [verifyBundle] at hrun
          injection hrun with h1 h2
          subst h1; subst h2
          refine ⟨rfl, ?_, ?_, ?_, ?_, ?_⟩
          · intro e he; exact absurd he (by simp)
          · intro a e ha hc
            injection hc with h; subst h
            exact ⟨rfl, rfl, rfl, rfl, rfl, rfl⟩
          · intro a c e _ hc; exact absurd hc (by simp)
          · intro a c e _ hc; exact absurd hc (by simp)
          · intro a c _ hc; exact absurd hc (by simp)
      | ok c0 =>
          cases hcomp : compareMeasurements c0 a0.measurement with
          | error e0 =>
              simp only [verifyBundle] at hrun
              rw [hcomp] at hrun
              injection hrun with h1 h2
              subst h1; subst h2
              refine ⟨rfl, ?_, ?_, ?_, ?_, ?_⟩
              · intro e he; exact absurd he (by simp)
              · intro a e _ hc; exact absurd hc (by simp)
              · intro a c e ha hc hcmp
                injection ha with h; subst h
                injection hc with h; subst h
                rw [hcomp] at hcmp
                injection hcmp with h; subst h
                exact ⟨rfl, rfl, rfl, rfl, rfl, rfl⟩
              · intro a c e ha hc hcmp
                injection ha with h; subst h
                injection hc with h; subst h
                rw [hcomp] at hcmp; exact absurd hcmp (by simp)
              · intro a c ha hc hcmp
                injection ha with h; subst h
                injection hc with h; subst h
                rw [hcomp] at hcmp; exact absurd hcmp (by simp)
          | ok u =>
              cases certR with
              | error e0 =>
                  simp only [verifyBundle] at hrun
                  rw [hcomp] at hrun
                  injection hrun with h1 h2
                  subst h1; subst h2
                  refine ⟨rfl, ?_, ?_, ?_, ?_, ?_⟩
                  · intro e he; exact absurd he (by simp)
                  · intro a e _ hc; exact absurd hc (by simp)
                  · intro a c e ha hc hcmp
                    injection ha with h; subst h
                    injection hc with h; subst h
                    rw [hcomp] at hcmp; exact absurd hcmp (by simp)
                  · intro a c e ha hc _ hcert
                    injection ha with h; subst h
                    injection hc with h; subst h
                    injection hcert with h; subst h
                    exact ⟨rfl, rfl, rfl, rfl, rfl, rfl⟩
                  · intro a c _ _ _ hcert; exact absurd hcert (by simp)
              | ok v =>
                  simp only [verifyBundle] at hrun
                  rw [hcomp] at hrun
                  injection hrun with h1 h2
                  subst h1; subst h2
                  refine ⟨rfl, ?_, ?_, ?_, ?_, ?_⟩
                  · intro e he; exact absurd he (by simp)
                  · intro a e _ hc; exact absurd hc (by simp)
                  · intro a c e ha hc hcmp
                    injection ha with h; subst h
                    injection hc with h; subst h
                    rw [hcomp] at hcmp; exact absurd hcmp (by simp)
                  · intro a c e _ _ _ hcert; exact absurd hcert (by simp)
                  · intro a c ha hc hcmp hcert
                    injection ha with h; subst h
                    exact ⟨rfl, rfl, rfl, rfl, rfl, rfl⟩

/-- C1, witness: with all four steps succeeding, verifyBundle returns
the attestation response and the all-success document. -/
theorem verifyBundle_spec_witness :
    (verifyBundle "tinfoilsh/confidential-model-router" "d0" "enclave.example"
        (.ok { measurement := { type := PredicateType.SevGuestV2, registers := ["m"] } })
        (.ok { type := PredicateType.SevGuestV2, registers := ["m"] })
        (.ok ()) (fun _ => "fp")).1
      = .ok { measurement := { type := PredicateType.SevGuestV2, registers := ["m"] } } ∧
    (verifyBundle "tinfoilsh/confidential-model-router" "d0" "enclave.example"
        (.ok { measurement := { type := PredicateType.SevGuestV2, registers := ["m"] } })
        (.ok { type := PredicateType.SevGuestV2, registers := ["m"] })
        (.ok ()) (fun _ => "fp")).2.securityVerified = true :=
  let res := verifyBundle_spec "tinfoilsh/confidential-model-router" "d0" "enclave.example"
    (.ok { measurement := { type := PredicateType.SevGuestV2, registers := ["m"] } })
    (.ok { type := PredicateType.SevGuestV2, registers := ["m"] })
    (.ok ()) (fun _ => "fp") _ _ rfl
  let fin := res.2.2.2.2.2 _ _ rfl rfl (by decide) rfl
  ⟨fin.1, fin.2.1⟩

/-! ### C6: ready() retry policy -/

/-- C6.  On a first `initSecureClient` failure that is a `FetchError`
or an `AttestationError`, `ready()` clears the derived state, waits
`INIT_RETRY_DELAY_MS = 1000` ms, and retries initialization exactly
once (two init attempts in the trace); on any other error class the
error propagates immediately after a single attempt, with no delay and
no second attempt. -/
theorem ready_retry_spec (configRepo : String) (s : ClientState) (o1 o2 : InitResult)
    (hfresh : s.initPromise = none) :
    (∀ d, o1 = .ok d →
      runReady configRepo s o1 o2 = (applyInit s d, .ok (), [.initAttempt])) ∧
    (∀ e, o1 = .error e → isTransientInitError e = true →
      (∀ d, o2 = .ok d →
        runReady configRepo s o1 o2 =
          (applyInit { s with derived := clearedDerivedState configRepo } d, .ok (),
            [.initAttempt, .clearDerived, .delay 1000, .initAttempt])) ∧
      (∀ e2, o2 = .error e2 →
        runReady configRepo s o1 o2 =
          (resetState configRepo, .error e2,
            [.initAttempt, .clearDerived, .delay 1000, .initAttempt, .reset]))) ∧
    (∀ e, o1 = .error e → isTransientInitError e = false →
      runReady configRepo s o1 o2 =
        (resetState configRepo, .error e, [.initAttempt, .reset])) := by
  refine ⟨?_, ?_, ?_⟩
  · rintro d rfl
    simp [runReady, hfresh]
  · rintro e rfl htr
    refine ⟨?_, ?_⟩
    · rintro d rfl
      simp [runReady, hfresh, htr, INIT_RETRY_DELAY_MS]
    · rintro e2 rfl
      simp [runReady, hfresh, htr, INIT_RETRY_DELAY_MS]
  · rintro e rfl htr
    simp [runReady, hfresh, htr]

/-- C6, witness: a `ConfigurationError` on the first attempt propagates
with a single init attempt and no retry. -/
theorem ready_retry_spec_witness :
    runReady "repo" (resetState "repo")
        (.error ⟨.configurationError, "ConfigurationError"⟩)
        (.ok ⟨0, createPendingVerificationDocument "repo", "https://e", "https://e/v1/"⟩)
      = (resetState "repo", .error ⟨.configurationError, "ConfigurationError"⟩,
          [.initAttempt, .reset]) :=
  (ready_retry_spec "repo" (resetState "repo")
      (.error ⟨.configurationError, "ConfigurationError"⟩)
      (.ok ⟨0, createPendingVerificationDocument "repo", "https://e", "https://e/v1/"⟩)
      rfl).2.2
    ⟨.configurationError, "ConfigurationError"⟩ rfl rfl

/-! ### C5: KeyConfigMismatch recovery in fetch -/

/-- C5.  With initialization already completed (cached fulfilled
promise), a transport send that throws an error named
`KeyConfigMismatchError` makes `fetch` reset the client, re-run the
full attestation via `ready()` (one init attempt when the fresh
attestation succeeds at once) and re-send the request exactly once,
returning the second send's outcome; a send that throws any other
error propagates unchanged with no reset, no re-attestation and no
second send; a successful send is returned directly. -/
theorem fetch_keyConfigMismatch_recovery (configRepo : String) (s : ClientState)
    (o1 o2 : InitResult) (t1 : Except JsError Nat) (o1' o2' : InitResult)
    (t2 : Except JsError Nat) (hready : s.initPromise = some (.ok ())) :
    (∀ v, t1 = .ok v →
      runFetch configRepo s o1 o2 t1 o1' o2' t2 = (s, .ok v, [.transportSend])) ∧
    (∀ e, t1 = .error e → isKeyConfigMismatchError e = true →
      ∀ d, o1' = .ok d →
        runFetch configRepo s o1 o2 t1 o1' o2' t2 =
          (applyInit (resetState configRepo) d, t2,
            [.transportSend, .reset, .initAttempt, .transportSend])) ∧
    (∀ e, t1 = .error e → isKeyConfigMismatchError e = false →
      runFetch configRepo s o1 o2 t1 o1' o2' t2 = (s, .error e, [.transportSend])) := by
  refine ⟨?_, ?_, ?_⟩
  · rintro v rfl
    simp [runFetch, runReady, hready]
  · rintro e rfl hk d rfl
    simp [runFetch, runReady, hready, hk, resetState]
  · rintro e rfl hk
    simp [runFetch, runReady, hready, hk]

/-- C5, witness: a `KeyConfigMismatchError` send followed by a clean
re-attestation yields exactly one reset, one init attempt and two
transport sends, returning the retried send's response. -/
theorem fetch_keyConfigMismatch_recovery_witness :
    runFetch "repo"
        { initPromise := some (.ok ()), derived := clearedDerivedState "repo" }
        (.ok ⟨0, createPendingVerificationDocument "repo", "https://e", "https://e/v1/"⟩)
        (.ok ⟨0, createPendingVerificationDocument "repo", "https://e", "https://e/v1/"⟩)
        (.error ⟨.foreign, "KeyConfigMismatchError"⟩)
        (.ok ⟨1, createPendingVerificationDocument "repo", "https://e", "https://e/v1/"⟩)
        (.ok ⟨1, createPendingVerificationDocument "repo", "https://e", "https://e/v1/"⟩)
        (.ok 42)
      = (applyInit (resetState "repo")
            ⟨1, createPendingVerificationDocument "repo", "https://e", "https://e/v1/"⟩,
          .ok 42, [.transportSend, .reset, .initAttempt, .transportSend]) :=
  (fetch_keyConfigMismatch_recovery "repo"
      { initPromise := some (.ok ()), derived := clearedDerivedState "repo" }
      (.ok ⟨0, createPendingVerificationDocument "repo", "https://e", "https://e/v1/"⟩)
      (.ok ⟨0, createPendingVerificationDocument "repo", "https://e", "https://e/v1/"⟩)
      (.error ⟨.foreign, "KeyConfigMismatchError"⟩)
      (.ok ⟨1, createPendingVerificationDocument "repo", "https://e", "https://e/v1/"⟩)
      (.ok ⟨1, createPendingVerificationDocument "repo", "https://e", "https://e/v1/"⟩)
      (.ok 42) rfl).2.1
    ⟨.foreign, "KeyConfigMismatchError"⟩ rfl rfl
    ⟨1, createPendingVerificationDocument "repo", "https://e", "https://e/v1/"⟩ rfl

/-! ### C10: a failed initialization is never sticky -/

/-- `countInits` distributes over trace concatenation. -/
theorem countInits_append (a b : List Event) :
    countInits (a ++ b) = countInits a + countInits b := by
  simp [countInits, List.filter_append]

/-- A `ready()` on a client with no cached promise performs at least
one init attempt. -/
theorem countInits_runReady_fresh (configRepo : String) (s : ClientState)
    (o1 o2 : InitResult) (h : s.initPromise = none) :
    1 ≤ countInits (runReady configRepo s o1 o2).2.2 := by
  cases o1 with
  | ok d => simp [runReady, h, countInits]
  | error e =>
      by_cases htr : isTransientInitError e = true
      · cases o2 <;> simp [runReady, h, htr, countInits]
      · simp [runReady, h, htr, countInits]

/-- A `fetch` on a client with no cached promise performs at least one
init attempt (its leading `ready()` does). -/
theorem countInits_runFetch_fresh (configRepo : String) (s : ClientState)
    (o1 o2 : InitResult) (t1 : Except JsError Nat) (o1' o2' : InitResult)
    (t2 : Except JsError Nat) (h : s.initPromise = none) :
    1 ≤ countInits (runFetch configRepo s o1 o2 t1 o1' o2' t2).2.2 := by
  have hev := countInits_runReady_fresh configRepo s o1 o2 h
  rcases hR : runReady configRepo s o1 o2 with ⟨s1, r1, ev1⟩
  rw [hR] at hev
  simp only at hev
  cases r1 with
  | error e => simp [runFetch, hR]; omega
  | ok u =>
      cases t1 with
      | ok v => simp [runFetch, hR, countInits_append]; omega
      | error e =>
          by_cases hk : isKeyConfigMismatchError e = true
          · rcases hR2 : runReady configRepo (resetState configRepo) o1' o2' with ⟨s3, r2, ev2⟩
            cases r2 <;> simp [runFetch, hR, hk, hR2, countInits_append] <;> omega
          · simp [runFetch, hR, hk, countInits_append]; omega

/-- C10.  If no rejected promise is cached (the reachable states),
then after any `ready()` call that rejects, the client state equals the
reset state - the cached promise is cleared and the derived state
dropped - and no rejected promise is ever cached afterwards; from that
reset state, the next `ready()` or `fetch()` performs a fresh init
attempt rather than returning a cached rejection. -/
theorem ready_failure_not_sticky (configRepo : String) (s : ClientState)
    (o1 o2 : InitResult) (hinv : ∀ e, s.initPromise ≠ some (.error e)) :
    (∀ e, (runReady configRepo s o1 o2).2.1 = .error e →
      (runReady configRepo s o1 o2).1 = resetState configRepo) ∧
    (∀ e, (runReady configRepo s o1 o2).1.initPromise ≠ some (.error e)) ∧
    (∀ e, (runReady configRepo s o1 o2).2.1 = .error e →
      ∀ o1' o2', 1 ≤ countInits
        (runReady configRepo (runReady configRepo s o1 o2).1 o1' o2').2.2) ∧
    (∀ e, (runReady configRepo s o1 o2).2.1 = .error e →
      ∀ o1' o2' t1 o1'' o2'' t2, 1 ≤ countInits
        (runFetch configRepo (runReady configRepo s o1 o2).1 o1' o2' t1 o1'' o2'' t2).2.2) := by
  have hstate : ∀ e, (runReady configRepo s o1 o2).2.1 = .error e →
      (runReady configRepo s o1 o2).1 = resetState configRepo := by
    intro e he
    cases hip : s.initPromise with
    | some r =>
        cases r with
        | ok u => simp [runReady, hip] at he
        | error e0 => exact absurd hip (hinv e0)
    | none =>
        cases o1 with
        | ok d => simp [runReady, hip] at he
        | error e1 =>
            by_cases htr : isTransientInitError e1 = true
            · cases o2 with
              | ok d =>
                  simp [runReady, hip, htr] at he
              | error e2 =>
                  simp [runReady, hip, htr]
            · simp [runReady, hip, htr]
  refine ⟨hstate, ?_, ?_, ?_⟩
  · intro e
    cases hip : s.initPromise with
    | some r =>
        cases r with
        | ok u => simp [runReady, hip]
        | error e0 => exact absurd hip (hinv e0)
    | none =>
        cases o1 with
        | ok d => simp [runReady, hip, applyInit]
        | error e1 =>
            by_cases htr : isTransientInitError e1 = true
            · cases o2 <;> simp [runReady, hip, htr, applyInit, resetState]
            · simp [runReady, hip, htr, resetState]
  · intro e he o1' o2'
    exact countInits_runReady_fresh configRepo _ o1' o2' (by rw [hstate e he]; rfl)
  · intro e he o1' o2' t1 o1'' o2'' t2
    exact countInits_runFetch_fresh configRepo _ o1' o2' t1 o1'' o2'' t2
      (by rw [hstate e he]; rfl)

/-- C10, witness: a non-transient first failure of `ready()` on a
fresh client leaves the client in the reset state. -/
theorem ready_failure_not_sticky_witness :
    (runReady "repo" (resetState "repo")
        (.error ⟨.configurationError, "ConfigurationError"⟩)
        (.error ⟨.configurationError, "ConfigurationError"⟩)).1
      = resetState "repo" :=
  (ready_failure_not_sticky "repo" (resetState "repo")
      (.error ⟨.configurationError, "ConfigurationError"⟩)
      (.error ⟨.configurationError, "ConfigurationError"⟩)
      (fun _ => by simp [resetState])).1
    ⟨.configurationError, "ConfigurationError"⟩ rfl

/-! ### C8: decodeDomains -/

/-- C8, counterexample.  The claim says `decodeDomains` is invariant
under every permutation of the SAN list.  The JS sort is stable, so two
names sharing the same two-digit index keep their input order; swapping
them changes the concatenated chunk string and the decoded bytes. -/
theorem decodeDomains_not_permutation_invariant :
    (["00AB.hpke.x", "00AA.hpke.x"] : List String).Perm ["00AA.hpke.x", "00AB.hpke.x"] ∧
    decodeDomains ["00AA.hpke.x", "00AB.hpke.x"] "hpke" = .ok [0, 0] ∧
    decodeDomains ["00AB.hpke.x", "00AA.hpke.x"] "hpke" = .ok [0, 64] :=
  ⟨List.Perm.swap "00AA.hpke.x" "00AB.hpke.x" [], by decide, by decide⟩

/-- A sorted-by-index list with pairwise distinct indices is strictly
sorted by index. -/
theorem sorted_idxLt_of_sorted_idxLe_nodup {l : List String}
    (hs : List.Sorted idxLe l) (hnd : (l.map jsIndex).Nodup) : List.Sorted idxLt l := by
  rw [List.Nodup, List.pairwise_map] at hnd
  exact (hs.and hnd).imp fun h => Nat.lt_of_le_of_ne h.1 h.2

/-- Two permuted lists with pairwise distinct indices have the same
stable sort. -/
theorem insertionSort_idxLe_eq_of_perm {m₁ m₂ : List String}
    (hp : m₁.Perm m₂) (hnd : (m₁.map jsIndex).Nodup) :
    List.insertionSort idxLe m₁ = List.insertionSort idxLe m₂ := by
  have p1 := List.perm_insertionSort idxLe m₁
  have p2 := List.perm_insertionSort idxLe m₂
  have nd2 : (m₂.map jsIndex).Nodup := ((hp.map jsIndex).nodup_iff).mp hnd
  have t1 : List.Sorted idxLt (List.insertionSort idxLe m₁) :=
    sorted_idxLt_of_sorted_idxLe_nodup (List.sorted_insertionSort idxLe m₁)
      (((p1.map jsIndex).nodup_iff).mpr hnd)
  have t2 : List.Sorted idxLt (List.insertionSort idxLe m₂) :=
    sorted_idxLt_of_sorted_idxLe_nodup (List.sorted_insertionSort idxLe m₂)
      (((p2.map jsIndex).nodup_iff).mpr nd2)
  exact List.eq_of_perm_of_sorted (p1.trans (hp.trans p2.symm)) t1 t2

/-- An element that fails the predicate survives `dropWhile`. -/
theorem mem_dropWhile_of_mem_of_not {p : Char → Bool} {l : List Char} {x : Char}
    (hx : x ∈ l) (hpx : p x = false) : x ∈ l.dropWhile p := by
  induction l with
  | nil => cases hx
  | cons y ys ih =>
      by_cases hpy : p y = true
      · rw [List.dropWhile_cons_of_pos hpy]
        rcases hx with _ | hx
        · rw [hpy] at hpx; cases hpx
        · exact ih (by assumption)
      · rw [List.dropWhile_cons_of_neg hpy]
        exact hx

/-- A character outside the base32 alphabet makes the decode loop
throw. -/
theorem b32Run_error_of_invalid {cs : List Char} (val bits : Nat) (acc : List Nat)
    (h : ∃ c ∈ cs, b32IndexOf c = none) :
    ∃ m, b32Run cs val bits acc = .error m := by
  induction cs generalizing val bits acc with
  | nil => rcases h with ⟨c, hc, _⟩; cases hc
  | cons c0 rest ih =>
      cases hidx : b32IndexOf c0 with
      | none => exact ⟨"Invalid base32: " ++ c0.toString, by simp [b32Run, hidx]⟩
      | some i =>
          have h' : ∃ c ∈ rest, b32IndexOf c = none := by
            rcases h with ⟨c, hc, hnone⟩
            rcases hc with _ | hc
            · rw [hidx] at hnone; cases hnone
            · exact ⟨c, by assumption, hnone⟩
          simp only [b32Run, hidx]
          by_cases hb : 8 ≤ bits + 5
          · rw [if_pos hb]; exact ih _ _ _ h'
          · rw [if_neg hb]; exact ih _ _ _ h'

/-- C8, amended.  `decodeDomains` selects the names containing
`'.<prefix>.'`, stably sorts them by their two-digit numeric index,
strips the index, concatenates and base32-decodes.  (a) When the
matching names are digit-indexed with pairwise distinct indices, every
permutation of the SAN list decodes to the same result (with duplicate
indices the stable sort preserves input order, and reorderings can
decode differently - see the counterexample).  (b) It throws when no
name contains `'.<prefix>.'`, and (c) it throws when a non-padding
character of the concatenated chunks lies outside the RFC 4648 base32
alphabet, compared case-insensitively. -/
theorem decodeDomains_spec :
    (∀ (l₁ l₂ : List String) (p : String), l₁.Perm l₂ →
      (∀ d ∈ l₁, hasDotPattern p d = true → twoDigitIndexed d = true) →
      ((l₁.filter (hasDotPattern p)).map jsIndex).Nodup →
      decodeDomains l₁ p = decodeDomains l₂ p) ∧
    (∀ (l : List String) (p : String), (∀ d ∈ l, hasDotPattern p d = false) →
      decodeDomains l p = .error ("No domains with prefix: " ++ p)) ∧
    (∀ (l : List String) (p : String) (c : Char), c ∈ chunksOf l p →
      b32IndexOf c.toUpper = none → c.toUpper ≠ '=' →
      ∃ m, decodeDomains l p = .error m) := by
  refine ⟨?_, ?_, ?_⟩
  · intro l₁ l₂ p hperm _hdigits hnd
    have hchunks : chunksOf l₁ p = chunksOf l₂ p := by
      unfold chunksOf
      rw [insertionSort_idxLe_eq_of_perm (hperm.filter (hasDotPattern p)) hnd]
    unfold decodeDomains
    rw [hchunks]
  · intro l p hno
    have hfil : l.filter (hasDotPattern p) = [] := by
      rw [List.filter_eq_nil_iff]
      intro a ha
      simp [hno a ha]
    unfold decodeDomains chunksOf
    rw [hfil]
    rfl
  · intro l p c hc hnone hne
    have hchunksne : chunksOf l p ≠ [] := List.ne_nil_of_mem hc
    have hmem : c.toUpper ∈ stripPad ((chunksOf l p).map Char.toUpper) := by
      unfold stripPad
      rw [List.mem_reverse]
      refine mem_dropWhile_of_mem_of_not ?_ (by simp [hne])
      rw [List.mem_reverse]
      exact List.mem_map_of_mem Char.toUpper hc
    obtain ⟨m, hm⟩ := @b32Run_error_of_invalid (stripPad ((chunksOf l p).map Char.toUpper))
      0 0 [] ⟨c.toUpper, hmem, hnone⟩
    refine ⟨m, ?_⟩
    unfold decodeDomains
    rw [if_neg (fun hh => hchunksne (List.isEmpty_iff.mp hh))]
    exact hm

/-- C8 amended, witness: two distinct-index SAN lists that are
permutations of each other decode identically. -/
theorem decodeDomains_spec_witness :
    decodeDomains ["00AA.hpke.x", "01AB.hpke.x"] "hpke"
      = decodeDomains ["01AB.hpke.x", "00AA.hpke.x"] "hpke" :=
  decodeDomains_spec.1 ["00AA.hpke.x", "01AB.hpke.x"] ["01AB.hpke.x", "00AA.hpke.x"] "hpke"
    (List.Perm.swap "01AB.hpke.x" "00AA.hpke.x" []) (by decide) (by decide)

/-! ### C9: domainMatchesSans wildcard matching -/

/-- `split('.')` never yields an empty part list. -/
theorem splitDot_ne_nil (cs : List Char) : splitDot cs ≠ [] := by
  cases cs with
  | nil => simp [splitDot]
  | cons c rest =>
      by_cases h : c = '.'
      · simp [splitDot, h]
      · cases hsr : splitDot rest <;> simp [splitDot, h, hsr]

/-- `join('.')` undoes `split('.')`. -/
theorem joinDot_splitDot (cs : List Char) : joinDot (splitDot cs) = cs := by
  induction cs with
  | nil => rfl
  | cons c rest ih =>
      by_cases h : c = '.'
      · subst h
        cases hsr : splitDot rest with
        | nil => exact absurd hsr (splitDot_ne_nil rest)
        | cons p ps =>
            rw [hsr] at ih
            simp [splitDot, joinDot, hsr, ih]
      · cases hsr : splitDot rest with
        | nil => exact absurd hsr (splitDot_ne_nil rest)
        | cons p ps =>
            rw [hsr] at ih
            cases ps with
            | nil => simp [splitDot, h, hsr, joinDot] at ih ⊢; exact ih
            | cons q qs =>
                simp only [joinDot] at ih
                simp [splitDot, h, hsr, joinDot, ih]

/-- Splitting a dot-free label glued with `'.'` onto a tail splits off
exactly that label. -/
theorem splitDot_label_append {lbl : List Char} (hl : '.' ∉ lbl) (cs : List Char) :
    splitDot (lbl ++ '.' :: cs) = lbl :: splitDot cs := by
  induction lbl with
  | nil => simp [splitDot]
  | cons a l ih =>
      have ha : ¬(a = '.') := fun hh => hl (hh ▸ List.mem_cons_self a l)
      have hl' : '.' ∉ l := fun hh => hl (List.mem_cons_of_mem a hh)
      simp [splitDot, ha, ih hl']

/-- Every part produced by `split('.')` is dot-free. -/
theorem not_dot_mem_of_mem_splitDot (cs : List Char) :
    ∀ part ∈ splitDot cs, '.' ∉ part := by
  induction cs with
  | nil => intro part hp; simp [splitDot] at hp; simp [hp]
  | cons c rest ih =>
      intro part hp
      by_cases h : c = '.'
      · rw [splitDot, if_pos h] at hp
        rcases hp with _ | hp
        · simp
        · exact ih part (by assumption)
      · rw [splitDot, if_neg h] at hp
        cases hsr : splitDot rest with
        | nil => exact absurd hsr (splitDot_ne_nil rest)
        | cons p ps =>
            rw [hsr] at hp
            rcases hp with _ | hp
            · intro hmem
              rcases hmem with _ | hmem
              · exact h rfl
              · exact ih p (hsr ▸ List.mem_cons_self p ps) (by assumption)
            · exact ih part (hsr ▸ List.mem_cons_of_mem p (by assumption))

/-- A string containing a dot splits into at least two parts. -/
theorem two_le_splitDot_length {cs : List Char} (h : '.' ∈ cs) :
    2 ≤ (splitDot cs).length := by
  induction cs with
  | nil => cases h
  | cons c rest ih =>
      by_cases hc : c = '.'
      · rw [splitDot, if_pos hc]
        have := List.length_pos.mpr (splitDot_ne_nil rest)
        simp only [List.length_cons]
        omega
      · have hrest : '.' ∈ rest := by
          rcases h with _ | hh
          · exact absurd rfl hc
          · assumption
        cases hsr : splitDot rest with
        | nil => exact absurd hsr (splitDot_ne_nil rest)
        | cons p ps =>
            have := ih hrest
            rw [hsr] at this
            rw [splitDot, if_neg hc, hsr]
            simpa using this

/-- A dot-free string splits into a single part. -/
theorem splitDot_eq_single {cs : List Char} (h : '.' ∉ cs) : splitDot cs = [cs] := by
  induction cs with
  | nil => rfl
  | cons c rest ih =>
      have hc : ¬(c = '.') := fun hh => h (hh ▸ List.mem_cons_self c rest)
      have hrest : '.' ∉ rest := fun hh => h (List.mem_cons_of_mem c hh)
      simp [splitDot, hc, ih hrest]

/-- Joining at least two parts puts a dot in the result. -/
theorem dot_mem_joinDot {parts : List (List Char)} (h : 2 ≤ parts.length) :
    '.' ∈ joinDot parts := by
  match parts, h with
  | a :: b :: t, _ =>
      rw [joinDot]
      exact List.mem_append_right a (List.mem_cons_self '.' _)

/-- `'*.' + x` at the character level. -/
theorem star_dot_data (x : String) : ("*." ++ x).data = '*' :: '.' :: x.data := by
  rw [String.data_append]; rfl

theorem startsWithStarDot_star (x : String) : startsWithStarDot ("*." ++ x) = true := by
  rw [startsWithStarDot, decide_eq_true_iff]
  exact ⟨x.data, by rw [show ("*." ++ x).toList = '*' :: '.' :: x.data from star_dot_data x]; rfl⟩

theorem substringFrom2_star (x : String) : substringFrom2 ("*." ++ x) = x := by
  rw [substringFrom2, show ("*." ++ x).toList = '*' :: '.' :: x.data from star_dot_data x]
  rfl

/-- `domainMatchesSans` on a single SAN, unfolded to its two clauses. -/
theorem domainMatchesSans_singleton (san d : String) :
    domainMatchesSans [san] d = true ↔
      (san = d ∨ (startsWithStarDot san = true ∧
        substringFrom2 san = getParentDomain d ∧ d ≠ getParentDomain d)) := by
  simp [domainMatchesSans, Bool.and_assoc, and_assoc, @eq_comm _ san]

theorem getParentDomain_of_le {d : String} (h : (splitDot d.toList).length ≤ 2) :
    getParentDomain d = d := by
  show (if (splitDot d.toList).length ≤ 2 then d
    else (⟨joinDot ((splitDot d.toList).drop 1)⟩ : String)) = d
  rw [if_pos h]

theorem getParentDomain_of_gt {d : String} (h : ¬(splitDot d.toList).length ≤ 2) :
    getParentDomain d = ⟨joinDot ((splitDot d.toList).drop 1)⟩ := by
  show (if (splitDot d.toList).length ≤ 2 then d
    else (⟨joinDot ((splitDot d.toList).drop 1)⟩ : String))
    = (⟨joinDot ((splitDot d.toList).drop 1)⟩ : String)
  rw [if_neg h]

/-- C9, counterexample.  The claim's wildcard rule - `'*.X'` matches
`D` iff `D` is exactly one label followed by `'.X'` - fails when `X`
has a single label: `'example.com'` is the label `'example'` followed
by `'.com'`, yet `domainMatchesSans(['*.com'], 'example.com')` is
false, because `getParentDomain('example.com')` is the two-label
domain itself, never the one-label `'com'`. -/
theorem domainMatchesSans_wildcard_counterexample :
    claimWildcardMatches "com" "example.com" ∧
      domainMatchesSans ["*.com"] "example.com" = false :=
  ⟨⟨"example", by decide, by decide, by decide⟩, by decide⟩

/-- C9, amended.  A non-wildcard SAN matches only the identical domain
string.  A wildcard SAN `'*.X'` where `X` itself contains a dot
matches `D` iff `D` is one (possibly empty) dot-free label followed by
`'.X'` - so `['*.example.com']` matches `'sub.example.com'` but
neither `'example.com'` nor `'a.b.example.com'`.  When `X` is dot-free
(e.g. `'*.com'`), the wildcard clause never fires and only the literal
string `'*.X'` matches. -/
theorem domainMatchesSans_spec :
    (∀ san d : String, startsWithStarDot san = false →
      (domainMatchesSans [san] d = true ↔ san = d)) ∧
    (∀ x d : String, '.' ∈ x.data →
      (domainMatchesSans ["*." ++ x] d = true ↔
        ∃ lbl : List Char, '.' ∉ lbl ∧ d.data = lbl ++ '.' :: x.data)) ∧
    (∀ x d : String, '.' ∉ x.data →
      (domainMatchesSans ["*." ++ x] d = true ↔ d = "*." ++ x)) := by
  refine ⟨?_, ?_, ?_⟩
  · intro san d hns
    rw [domainMatchesSans_singleton]
    simp [hns]
  · intro x d hx
    rw [domainMatchesSans_singleton, startsWithStarDot_star, substringFrom2_star]
    constructor
    · rintro (h | ⟨-, hpar, hne⟩)
      · exact ⟨['*'], by decide, by rw [← h]; exact star_dot_data x⟩
      · by_cases hlen : (splitDot d.toList).length ≤ 2
        · exact absurd (getParentDomain_of_le hlen).symm hne
        · cases hsp : splitDot d.toList with
          | nil => exact absurd hsp (splitDot_ne_nil d.toList)
          | cons p0 rest =>
              cases rest with
              | nil => rw [hsp] at hlen; simp at hlen
              | cons r1 rest' =>
                  have hjoin : joinDot (r1 :: rest') = x.data := by
                    have := congrArg String.data
                      (hpar.trans (getParentDomain_of_gt hlen))
                    rw [hsp] at this
                    exact this.symm
                  have hd : d.data = p0 ++ '.' :: joinDot (r1 :: rest') := by
                    have := joinDot_splitDot d.toList
                    rw [hsp, joinDot] at this
                    exact this.symm
                  refine ⟨p0, ?_, by rw [hd, hjoin]⟩
                  exact not_dot_mem_of_mem_splitDot d.toList p0
                    (hsp ▸ List.mem_cons_self p0 _)
    · rintro ⟨lbl, hl, hd⟩
      have hsp : splitDot d.toList = lbl :: splitDot x.data := by
        rw [show d.toList = lbl ++ '.' :: x.data from hd]
        exact splitDot_label_append hl x.data
      have hx2 : 2 ≤ (splitDot x.data).length := two_le_splitDot_length hx
      have hlen : ¬(splitDot d.toList).length ≤ 2 := by
        rw [hsp]; simp; omega
      have hpar : getParentDomain d = x := by
        rw [getParentDomain_of_gt hlen, hsp]
        simp only [List.drop_one, List.tail_cons]
        rw [joinDot_splitDot x.data]
      have hne : d ≠ x := by
        intro hh
        have hlen2 : d.data.length = x.data.length := congrArg (fun s => s.data.length) hh
        rw [hd] at hlen2
        simp at hlen2
        omega
      exact Or.inr ⟨rfl, hpar.symm, by rw [hpar]; exact hne⟩
  · intro x d hx
    rw [domainMatchesSans_singleton, startsWithStarDot_star, substringFrom2_star]
    constructor
    · rintro (h | ⟨-, hpar, hne⟩)
      · exact h.symm
      · exfalso
        by_cases hlen : (splitDot d.toList).length ≤ 2
        · exact hne (getParentDomain_of_le hlen).symm
        · cases hsp : splitDot d.toList with
          | nil => exact absurd hsp (splitDot_ne_nil d.toList)
          | cons p0 rest =>
              have hrest : 2 ≤ rest.length := by
                rw [hsp] at hlen; simp at hlen; omega
              have hjoin : joinDot rest = x.data := by
                have := congrArg String.data
                  (hpar.trans (getParentDomain_of_gt hlen))
                rw [hsp] at this
                exact this.symm
              exact hx (hjoin ▸ dot_mem_joinDot hrest)
    · rintro rfl
      exact Or.inl rfl

/-- C9 amended, witness: `['*.example.com']` matches
`'sub.example.com'` (one label before `'.example.com'`). -/
theorem domainMatchesSans_spec_witness :
    domainMatchesSans ["*." ++ "example.com"] "sub.example.com" = true :=
  (domainMatchesSans_spec.2.1 "example.com" "sub.example.com" (by decide)).mpr
    ⟨['s', 'u', 'b'], by decide, by decide⟩

end Tinfoil
